import Mathlib

/-!
Shallow embedding of the AI Resume Analyzer backend (Python) in Lean 4,
with theorems checking the natural-language specification against the code.

Python floats are modelled as rationals (`ℚ`); the embedding-space cosine
similarity, which involves square roots, lives in `ℝ`.  Python lists of
strings are `List String`; a Python `set` built from a list is modelled as
the deduplicated list (iteration order of a Python set is unspecified, and
no claim depends on it).  A fallible Python function is as an
`Except String` value whose `error` case models a raised exception.
-/

namespace ResumeAnalyzer

/-! backend/scorer.py -/

/-- Embeds `calculate_keyword_match_score` (scorer.py, lines 12-37):
Jaccard similarity of the two keyword sets; `0.0` when either list is
empty or (defensively) when the union is empty. -/
def calculate_keyword_match_score (resume_keywords jd_keywords : List String) : ℚ :=
  if resume_keywords = [] ∨ jd_keywords = [] then 0
  else
    let set_resume := resume_keywords.dedup
    let set_jd := jd_keywords.dedup
    let intersection := (set_resume.filter (fun k => k ∈ set_jd)).length
    let union := (resume_keywords ++ jd_keywords).dedup.length
    if union = 0 then 0
    else (intersection : ℚ) / (union : ℚ)

/-- Clamp into [0,1]: embeds `max(0.0, min(1.0, semantic_similarity_score))`
from scorer.py line 77. -/
def clamp01 (x : ℚ) : ℚ := max 0 (min 1 x)

/-- Embeds `calculate_overall_score` (scorer.py, lines 39-86).  The
`raise ValueError` on out-of-range weights is the `Except.error` case; the
sum-of-weights-0 branch prints a warning and returns `0.0`; otherwise the
weights are normalized when their sum differs from 1 and the weighted,
clamped combination is scaled to [0,100]. -/
def calculate_overall_score (resume_keywords jd_keywords : List String)
    (semantic_similarity_score keyword_weight semantic_weight : ℚ) :
    Except String ℚ :=
  if ¬ (0 ≤ keyword_weight ∧ keyword_weight ≤ 1 ∧
        0 ≤ semantic_weight ∧ semantic_weight ≤ 1) then
    Except.error "Weights must be between 0 and 1."
  else if ¬ (0 < keyword_weight + semantic_weight) then
    Except.ok 0
  else
    let total_weight := keyword_weight + semantic_weight
    let kw := if total_weight ≠ 1 then keyword_weight / total_weight else keyword_weight
    let sw := if total_weight ≠ 1 then semantic_weight / total_weight else semantic_weight
    let keyword_match_score := calculate_keyword_match_score resume_keywords jd_keywords
    let clamped_semantic_score := clamp01 semantic_similarity_score
    Except.ok ((keyword_match_score * kw + clamped_semantic_score * sw) * 100)

/-! backend/feedback_generator.py

Each distinct feedback message template of `generate_feedback` is one
constructor of `Msg`; the data interpolated into the f-string (the example
keyword list, the remaining-keyword count, the overall score) is carried as
an argument, so two messages are equal exactly when the Python strings
coincide. -/

/-- Feedback message templates of feedback_generator.py, in order of
appearance in the source (lines 38, 42, 46, 49, 51, 54, 57, 59, 62, 65,
67, 72, 75, 78, 81). -/
inductive Msg where
  | missingKeywordsSuggestion (examples : List String)
  | moreMissingKeywords (count : Nat)
  | excellentMatch (score : ℚ)
  | strongSemanticAlignment
  | goodSemanticAlignment
  | goodPotential (score : ℚ)
  | contentWellAligned
  | tailorLanguage
  | needsImprovement (score : ℚ)
  | rephraseLowSemantic
  | highlightRelevantSkills
  | commonKeywordsStrength (examples : List String)
  | greatKeywordCoverage
  | goodOverallMatchGeneric
  | reviewJDUnmentioned
deriving DecidableEq, Repr

/-- The four fixed keys of the feedback dictionary. -/
inductive FKey where
  | overall_summary
  | missing_keywords_suggestions
  | strengths
  | areas_for_improvement
deriving DecidableEq, Repr

/-- Embeds `set(k.lower() for k in keywords)`: the set of lowercased
keywords, as a deduplicated list. -/
def pySetLower (keywords : List String) : List String :=
  (keywords.map String.toLower).dedup

/-- Embeds `missing_keywords = list(set_jd_keywords - set_resume_keywords)`
(feedback_generator.py line 35). -/
def missingKeywords (resume_keywords jd_keywords : List String) : List String :=
  (pySetLower jd_keywords).filter (fun k => ¬ k ∈ pySetLower resume_keywords)

/-- Embeds `common_keywords = list(set_resume_keywords.intersection(set_jd_keywords))`
(feedback_generator.py line 70). -/
def commonKeywords (resume_keywords jd_keywords : List String) : List String :=
  (pySetLower resume_keywords).filter (fun k => k ∈ pySetLower jd_keywords)

/-- Step 1 of `generate_feedback` (lines 37-42): the
`missing_keywords_suggestions` list. -/
def missingSuggestions (resume_keywords jd_keywords : List String)
    (top_n_missing_keywords : Nat) : List Msg :=
  let missing := missingKeywords resume_keywords jd_keywords
  if missing = [] then []
  else
    [Msg.missingKeywordsSuggestion (missing.take top_n_missing_keywords)] ++
      (if top_n_missing_keywords < missing.length then
        [Msg.moreMissingKeywords (missing.length - top_n_missing_keywords)]
      else [])

/-- Step 2 of `generate_feedback` (lines 45-67): the single summary message
chosen by the score band. -/
def overallSummary (overall_score : ℚ) : List Msg :=
  if (75 : ℚ) ≤ overall_score then [Msg.excellentMatch overall_score]
  else if (50 : ℚ) ≤ overall_score then [Msg.goodPotential overall_score]
  else [Msg.needsImprovement overall_score]

/-- Step 2 of `generate_feedback`: the strengths appended inside the score
band branches (lines 48-57). -/
def bandStrengths (semantic_similarity_score overall_score : ℚ) : List Msg :=
  if (75 : ℚ) ≤ overall_score then
    (if (3 / 4 : ℚ) ≤ semantic_similarity_score then [Msg.strongSemanticAlignment]
     else if (3 / 5 : ℚ) ≤ semantic_similarity_score then [Msg.goodSemanticAlignment]
     else [])
  else if (50 : ℚ) ≤ overall_score then
    (if (3 / 5 : ℚ) ≤ semantic_similarity_score then [Msg.contentWellAligned] else [])
  else []

/-- Step 2 of `generate_feedback`: the improvement notes appended inside
the score band branches (lines 58-67). -/
def bandImprovements (semantic_similarity_score overall_score : ℚ) : List Msg :=
  if (75 : ℚ) ≤ overall_score then []
  else if (50 : ℚ) ≤ overall_score then
    (if (3 / 5 : ℚ) ≤ semantic_similarity_score then [] else [Msg.tailorLanguage])
  else
    (if semantic_similarity_score < (1 / 2 : ℚ) then [Msg.rephraseLowSemantic]
     else [Msg.highlightRelevantSkills])

/-- Steps 2-3 of `generate_feedback` for the `strengths` list, in source
order: band strengths (lines 48-57), the shared-keyword strength (lines
70-72), the keyword-coverage strength (lines 74-75), then the generic
strength when the list is still empty (lines 77-78). -/
def strengthsList (resume_keywords jd_keywords : List String)
    (semantic_similarity_score overall_score : ℚ)
    (top_n_missing_keywords : Nat) : List Msg :=
  let common := commonKeywords resume_keywords jd_keywords
  let afterCommon := bandStrengths semantic_similarity_score overall_score ++
    (if common = [] then []
     else [Msg.commonKeywordsStrength (common.take top_n_missing_keywords)])
  let afterCoverage := afterCommon ++
    (if missingKeywords resume_keywords jd_keywords = [] ∧ (70 : ℚ) ≤ overall_score then
      [Msg.greatKeywordCoverage]
    else [])
  afterCoverage ++
    (if afterCoverage = [] ∧ (60 : ℚ) ≤ overall_score then
      [Msg.goodOverallMatchGeneric]
    else [])

/-- Steps 2-3 of `generate_feedback` for the `areas_for_improvement` list,
in source order: band improvement notes (lines 58-67), then the review-JD
note when no missing-keyword suggestion exists and the score is below 70
(lines 80-81). -/
def improvementsList (resume_keywords jd_keywords : List String)
    (semantic_similarity_score overall_score : ℚ)
    (top_n_missing_keywords : Nat) : List Msg :=
  bandImprovements semantic_similarity_score overall_score ++
    (if missingSuggestions resume_keywords jd_keywords top_n_missing_keywords = [] ∧
        overall_score < (70 : ℚ) then
      [Msg.reviewJDUnmentioned]
    else [])

/-- Embeds `generate_feedback` (feedback_generator.py, lines 10-93).  The
returned Python dict is the association list of its keys in insertion
order; the final `pop` calls (lines 83-91) drop the three optional
categories when empty, while `overall_summary` is always kept. -/
def generate_feedback (resume_keywords jd_keywords : List String)
    (semantic_similarity_score overall_score : ℚ)
    (top_n_missing_keywords : Nat) : List (FKey × List Msg) :=
  let suggestions := missingSuggestions resume_keywords jd_keywords top_n_missing_keywords
  let strengths := strengthsList resume_keywords jd_keywords
    semantic_similarity_score overall_score top_n_missing_keywords
  let improvements := improvementsList resume_keywords jd_keywords
    semantic_similarity_score overall_score top_n_missing_keywords
  [(FKey.overall_summary, overallSummary overall_score)] ++
    (if suggestions = [] then [] else [(FKey.missing_keywords_suggestions, suggestions)]) ++
    (if strengths = [] then [] else [(FKey.strengths, strengths)]) ++
    (if improvements = [] then [] else [(FKey.areas_for_improvement, improvements)])

/-- Message list stored under a key of the feedback report; `[]` when the
key is absent (the code removes exactly the keys whose list is empty, so
an absent key and an empty list are interchangeable). -/
def category (report : List (FKey × List Msg)) (k : FKey) : List Msg :=
  match report.find? (fun kv => kv.1 == k) with
  | some kv => kv.2
  | none => []

/-! Characterization of the report categories

The final `pop` step removes exactly the optional keys whose message list
is empty, so reading a category through `category` (with `[]` for an
absent key) always yields the list built by the corresponding step of the
function. -/

theorem category_overall_summary (r j : List String) (s o : ℚ) (n : Nat) :
    category (generate_feedback r j s o n) FKey.overall_summary = overallSummary o := by
  simp [category, generate_feedback, List.find?]

theorem category_missing_suggestions (r j : List String) (s o : ℚ) (n : Nat) :
    category (generate_feedback r j s o n) FKey.missing_keywords_suggestions =
      missingSuggestions r j n := by
  by_cases h1 : missingSuggestions r j n = [] <;>
    by_cases h2 : strengthsList r j s o n = [] <;>
    by_cases h3 : improvementsList r j s o n = [] <;>
    (simp only [category, generate_feedback, h1, h2, h3, if_true, if_false,
      eq_self_iff_true, not_true, not_false_iff, ite_true, ite_false]
     try rw [h1]
     try rfl)

theorem category_strengths (r j : List String) (s o : ℚ) (n : Nat) :
    category (generate_feedback r j s o n) FKey.strengths =
      strengthsList r j s o n := by
  by_cases h1 : missingSuggestions r j n = [] <;>
    by_cases h2 : strengthsList r j s o n = [] <;>
    by_cases h3 : improvementsList r j s o n = [] <;>
    (simp only [category, generate_feedback, h1, h2, h3, if_true, if_false,
      eq_self_iff_true, not_true, not_false_iff, ite_true, ite_false]
     try rw [h2]
     try rfl)

theorem category_improvements (r j : List String) (s o : ℚ) (n : Nat) :
    category (generate_feedback r j s o n) FKey.areas_for_improvement =
      improvementsList r j s o n := by
  by_cases h1 : missingSuggestions r j n = [] <;>
    by_cases h2 : strengthsList r j s o n = [] <;>
    by_cases h3 : improvementsList r j s o n = [] <;>
    (simp only [category, generate_feedback, h1, h2, h3, if_true, if_false,
      eq_self_iff_true, not_true, not_false_iff, ite_true, ite_false]
     try rw [h3]
     try rfl)

theorem overallSummary_length (o : ℚ) : (overallSummary o).length = 1 := by
  unfold overallSummary
  split_ifs <;> rfl

theorem bandStrengths_subset_strengthsList (r j : List String) (s o : ℚ) (n : Nat) :
    ∀ m ∈ bandStrengths s o, m ∈ strengthsList r j s o n := by
  intro m hm
  unfold strengthsList
  exact List.mem_append_left _ (List.mem_append_left _ (List.mem_append_left _ hm))

theorem bandImprovements_subset_improvementsList (r j : List String) (s o : ℚ) (n : Nat) :
    ∀ m ∈ bandImprovements s o, m ∈ improvementsList r j s o n := by
  intro m hm
  unfold improvementsList
  exact List.mem_append_left _ hm

/-- C1: exactly one score band of `generate_feedback` applies.  When
`overall_score ≥ 75` the summary is the single "Excellent match" message,
with a strong-alignment strength when `semantic ≥ 0.75` and otherwise a
moderate-alignment strength when `semantic ≥ 0.60`; when
`50 ≤ overall_score < 75` the summary is the single "Good potential"
message, with an alignment strength when `semantic ≥ 0.60` and otherwise a
terminology-tailoring improvement note; when `overall_score < 50` the
summary is the single "Needs improvement" message, with a
low-semantic-similarity improvement note when `semantic < 0.50` and
otherwise a highlight-relevant-skills improvement note. -/
theorem generate_feedback_score_bands (resume jd : List String) (sem overall : ℚ)
    (topN : Nat) :
    ((75 : ℚ) ≤ overall →
      category (generate_feedback resume jd sem overall topN) FKey.overall_summary
          = [Msg.excellentMatch overall]
        ∧ ((3 / 4 : ℚ) ≤ sem →
            Msg.strongSemanticAlignment ∈
              category (generate_feedback resume jd sem overall topN) FKey.strengths)
        ∧ (sem < (3 / 4 : ℚ) → (3 / 5 : ℚ) ≤ sem →
            Msg.goodSemanticAlignment ∈
              category (generate_feedback resume jd sem overall topN) FKey.strengths))
    ∧ ((50 : ℚ) ≤ overall → overall < 75 →
      category (generate_feedback resume jd sem overall topN) FKey.overall_summary
          = [Msg.goodPotential overall]
        ∧ ((3 / 5 : ℚ) ≤ sem →
            Msg.contentWellAligned ∈
              category (generate_feedback resume jd sem overall topN) FKey.strengths)
        ∧ (sem < (3 / 5 : ℚ) →
            Msg.tailorLanguage ∈
              category (generate_feedback resume jd sem overall topN) FKey.areas_for_improvement))
    ∧ (overall < 50 →
      category (generate_feedback resume jd sem overall topN) FKey.overall_summary
          = [Msg.needsImprovement overall]
        ∧ (sem < (1 / 2 : ℚ) →
            Msg.rephraseLowSemantic ∈
              category (generate_feedback resume jd sem overall topN) FKey.areas_for_improvement)
        ∧ ((1 / 2 : ℚ) ≤ sem →
            Msg.highlightRelevantSkills ∈
              category (generate_feedback resume jd sem overall topN) FKey.areas_for_improvement)) := by
  refine ⟨fun h75 => ⟨?_, fun hs => ?_, fun hs1 hs2 => ?_⟩,
    fun h50 h75 => ⟨?_, fun hs => ?_, fun hs => ?_⟩,
    fun h50 => ⟨?_, fun hs => ?_, fun hs => ?_⟩⟩
  · rw [category_overall_summary]
    simp [overallSummary, h75]
  · rw [category_strengths]
    refine bandStrengths_subset_strengthsList resume jd sem overall topN _ ?_
    simp [bandStrengths, h75, hs]
  · rw [category_strengths]
    refine bandStrengths_subset_strengthsList resume jd sem overall topN _ ?_
    simp [bandStrengths, h75, hs2, not_le.mpr hs1]
  · rw [category_overall_summary]
    simp [overallSummary, h50, not_le.mpr h75]
  · rw [category_strengths]
    refine bandStrengths_subset_strengthsList resume jd sem overall topN _ ?_
    simp [bandStrengths, h50, hs, not_le.mpr h75]
  · rw [category_improvements]
    refine bandImprovements_subset_improvementsList resume jd sem overall topN _ ?_
    simp [bandImprovements, h50, not_le.mpr h75, not_le.mpr hs]
  · rw [category_overall_summary]
    have h50a : ¬ (50 : ℚ) ≤ overall := not_le.mpr h50
    have h75a : ¬ (75 : ℚ) ≤ overall := not_le.mpr (lt_trans h50 (by norm_num))
    simp [overallSummary, h50a, h75a]
  · rw [category_improvements]
    refine bandImprovements_subset_improvementsList resume jd sem overall topN _ ?_
    have h50a : ¬ (50 : ℚ) ≤ overall := not_le.mpr h50
    have h75a : ¬ (75 : ℚ) ≤ overall := not_le.mpr (lt_trans h50 (by norm_num))
    simp [bandImprovements, h50a, h75a, show sem < (2⁻¹ : ℚ) by linarith]
  · rw [category_improvements]
    refine bandImprovements_subset_improvementsList resume jd sem overall topN _ ?_
    have h50a : ¬ (50 : ℚ) ≤ overall := not_le.mpr h50
    have h75a : ¬ (75 : ℚ) ≤ overall := not_le.mpr (lt_trans h50 (by norm_num))
    simp [bandImprovements, h50a, h75a, show ¬ sem < (2⁻¹ : ℚ) by push_neg; linarith]

/-- Witness for C1 at concrete inputs: with `overall = 80` and
`sem = 4/5`, the summary is the "Excellent match" message and the
strong-alignment strength is present. -/
theorem generate_feedback_score_bands_witness :
    category (generate_feedback [] [] (4 / 5) 80 5) FKey.overall_summary
        = [Msg.excellentMatch 80]
      ∧ Msg.strongSemanticAlignment ∈
          category (generate_feedback [] [] (4 / 5) 80 5) FKey.strengths := by
  have h := generate_feedback_score_bands [] [] (4 / 5) 80 5
  exact ⟨(h.1 (by norm_num)).1, (h.1 (by norm_num)).2.1 (by norm_num)⟩

/-- C10: every category key present in the report of `generate_feedback`
maps to a non-empty message list, and the `overall_summary` key is always
present, mapping to exactly one message. -/
theorem generate_feedback_report_wellformed (resume jd : List String)
    (sem overall : ℚ) (topN : Nat) :
    (∀ kv ∈ generate_feedback resume jd sem overall topN, kv.2 ≠ [])
    ∧ (∃ msgs, (FKey.overall_summary, msgs) ∈ generate_feedback resume jd sem overall topN
        ∧ msgs.length = 1
        ∧ category (generate_feedback resume jd sem overall topN) FKey.overall_summary
            = msgs) := by
  constructor
  · rintro ⟨k, msgs⟩ hkv hnil
    rw [show msgs = [] from hnil] at hkv
    have hsum : ¬ overallSummary overall = [] := by
      intro h
      have hlen := overallSummary_length overall
      rw [h] at hlen
      simp at hlen
    by_cases h1 : missingSuggestions resume jd topN = [] <;>
      by_cases h2 : strengthsList resume jd sem overall topN = [] <;>
      by_cases h3 : improvementsList resume jd sem overall topN = [] <;>
      (simp only [generate_feedback, h1, h2, h3, if_true, if_false, eq_self_iff_true,
        not_true, not_false_iff, ite_true, ite_false, List.append_nil, List.nil_append,
        List.mem_append, List.mem_singleton, List.mem_cons, List.not_mem_nil,
        or_false, false_or, Prod.mk.injEq] at hkv) <;>
      simp_all [List.nil_eq]
  · exact ⟨overallSummary overall,
      by
        unfold generate_feedback
        exact List.mem_append_left _ (List.mem_append_left _
          (List.mem_append_left _ (List.mem_cons_self _ _))),
      overallSummary_length overall,
      category_overall_summary resume jd sem overall topN⟩

/-- Counterexample to C6: with an empty JD keyword set, `overall = 72 ≥ 70`
and no other strength emitted (`sem = 0`), the claim asserts that both the
generic "good overall match" strength and the "great keyword coverage"
strength appear; in the code the coverage strength is added first (line
74), so the generic strength's guard "no strengths were produced" (line
77) fails and only the coverage strength appears. -/
theorem fallback_order_counterexample :
    ¬ (Msg.goodOverallMatchGeneric ∈
          category (generate_feedback [] [] 0 72 5) FKey.strengths
        ∧ Msg.greatKeywordCoverage ∈
          category (generate_feedback [] [] 0 72 5) FKey.strengths) := by
  intro h
  have hband : bandStrengths 0 72 = [] := by
    norm_num [bandStrengths]
  have hc : strengthsList [] [] 0 72 5 = [Msg.greatKeywordCoverage] := by
    norm_num [strengthsList, missingKeywords, commonKeywords, pySetLower, hband]
  rw [category_strengths, hc] at h
  simp at h

/-- C6 (amended): the code applies the three fallback rules in the order
keyword-coverage strength (line 74), generic strength (line 77), review-JD
improvement note (line 80); consequently, whenever the JD keyword set is
empty and `70 ≤ overall` with `sem < 0.60` (so no band strength and no
shared-keyword strength was emitted, in either score band), the strengths
category holds exactly the coverage strength and the generic strength is
suppressed by it. -/
theorem fallback_order_amended (resume : List String) (sem overall : ℚ) (topN : Nat)
    (h70 : (70 : ℚ) ≤ overall) (hsem : sem < (3 / 5 : ℚ)) :
    category (generate_feedback resume [] sem overall topN) FKey.strengths
        = [Msg.greatKeywordCoverage]
      ∧ ¬ Msg.goodOverallMatchGeneric ∈
          category (generate_feedback resume [] sem overall topN) FKey.strengths := by
  have hmiss : missingKeywords resume [] = [] := by
    simp [missingKeywords, pySetLower]
  have hcommon : commonKeywords resume [] = [] := by
    simp [commonKeywords, pySetLower]
  have h50 : (50 : ℚ) ≤ overall := le_trans (by norm_num) h70
  have hband : bandStrengths sem overall = [] := by
    by_cases h75 : (75 : ℚ) ≤ overall
    · simp [bandStrengths, h75, not_le.mpr hsem,
        show ¬ (3 / 4 : ℚ) ≤ sem by push_neg; linarith]
    · simp [bandStrengths, h75, h50, not_le.mpr hsem]
  have hstr : strengthsList resume [] sem overall topN = [Msg.greatKeywordCoverage] := by
    simp [strengthsList, hmiss, hcommon, hband, h70]
  rw [category_strengths, hstr]
  simp

/-- Witness for the amended C6 at concrete inputs, in the high band:
`overall = 80`, `sem = 1/2`, empty JD keyword set. -/
theorem fallback_order_amended_witness :
    category (generate_feedback ["python"] [] (1 / 2) 80 5) FKey.strengths
        = [Msg.greatKeywordCoverage]
      ∧ ¬ Msg.goodOverallMatchGeneric ∈
          category (generate_feedback ["python"] [] (1 / 2) 80 5) FKey.strengths :=
  fallback_order_amended ["python"] (1 / 2) 80 5 (by norm_num) (by norm_num)

/-! Scorer theorems -/

theorem clamp01_mem (x : ℚ) : 0 ≤ clamp01 x ∧ clamp01 x ≤ 1 := by
  unfold clamp01
  exact ⟨le_max_left 0 _, max_le (by norm_num) (min_le_left 1 x)⟩

theorem clamp01_mono {x y : ℚ} (h : x ≤ y) : clamp01 x ≤ clamp01 y := by
  unfold clamp01
  exact max_le_max le_rfl (min_le_min le_rfl h)

theorem calculate_keyword_match_score_mem (r j : List String) :
    0 ≤ calculate_keyword_match_score r j ∧ calculate_keyword_match_score r j ≤ 1 := by
  by_cases h1 : r = [] ∨ j = []
  · simp only [calculate_keyword_match_score, if_pos h1]
    norm_num
  by_cases h2 : (r ++ j).dedup.length = 0
  · simp only [calculate_keyword_match_score, if_neg h1, if_pos h2]
    norm_num
  simp only [calculate_keyword_match_score, if_neg h1, if_neg h2]
  · have hsub : (r.dedup.filter (fun k => k ∈ j.dedup)) ⊆ (r ++ j).dedup := by
      intro x hx
      rw [List.mem_dedup]
      exact List.mem_append_left _ (List.mem_dedup.mp (List.mem_filter.mp hx).1)
    have hnd : (r.dedup.filter (fun k => k ∈ j.dedup)).Nodup :=
      (List.nodup_dedup r).filter _
    have hle : (r.dedup.filter (fun k => k ∈ j.dedup)).length ≤ (r ++ j).dedup.length :=
      (hnd.subperm hsub).length_le
    have hupos : (0 : ℚ) < ((r ++ j).dedup.length : ℚ) := by
      have := h2
      positivity
    constructor
    · positivity
    · rw [div_le_one hupos]
      exact_mod_cast hle

/-- When the weights are in range and have positive sum,
`calculate_overall_score` returns the normalized weighted combination. -/
theorem overall_score_eq (resume jd : List String) (sem kw sw : ℚ)
    (hval : 0 ≤ kw ∧ kw ≤ 1 ∧ 0 ≤ sw ∧ sw ≤ 1) (hpos : 0 < kw + sw) :
    calculate_overall_score resume jd sem kw sw =
      Except.ok ((calculate_keyword_match_score resume jd * (kw / (kw + sw))
        + clamp01 sem * (sw / (kw + sw))) * 100) := by
  unfold calculate_overall_score
  rw [if_neg (not_not_intro hval), if_neg (not_not_intro hpos)]
  by_cases htot : kw + sw = 1
  · simp [htot]
  · simp [htot]

/-- C2: with both weights in `[0,1]` and positive sum, the overall score
is the weight-normalized convex combination of the Jaccard keyword score
and the clamped semantic score, scaled by 100; hence it lies in
`[0,100]`, and the weight pair `(0.5, 0.8)` gives the same score as the
pre-normalized pair `(0.5/1.3, 0.8/1.3)`. -/
theorem calculate_overall_score_spec (resume jd : List String) (sem kw sw : ℚ)
    (h1 : 0 ≤ kw) (h2 : kw ≤ 1) (h3 : 0 ≤ sw) (h4 : sw ≤ 1) (h5 : 0 < kw + sw) :
    calculate_overall_score resume jd sem kw sw =
        Except.ok ((calculate_keyword_match_score resume jd * (kw / (kw + sw))
          + clamp01 sem * (sw / (kw + sw))) * 100)
      ∧ (∀ x, calculate_overall_score resume jd sem kw sw = Except.ok x →
          0 ≤ x ∧ x ≤ 100)
      ∧ calculate_overall_score resume jd sem (1 / 2) (4 / 5)
          = calculate_overall_score resume jd sem ((1 / 2) / (13 / 10)) ((4 / 5) / (13 / 10)) := by
  refine ⟨overall_score_eq resume jd sem kw sw ⟨h1, h2, h3, h4⟩ h5, ?_, ?_⟩
  · intro x hx
    rw [overall_score_eq resume jd sem kw sw ⟨h1, h2, h3, h4⟩ h5] at hx
    obtain rfl := (Except.ok.inj hx).symm
    have hK := calculate_keyword_match_score_mem resume jd
    have hS := clamp01_mem sem
    have ha : 0 ≤ kw / (kw + sw) := div_nonneg h1 h5.le
    have hb : 0 ≤ sw / (kw + sw) := div_nonneg h3 h5.le
    have hab : kw / (kw + sw) + sw / (kw + sw) = 1 := by
      rw [div_add_div_same, div_self h5.ne']
    constructor
    · nlinarith [mul_nonneg hK.1 ha, mul_nonneg hS.1 hb]
    · nlinarith [mul_le_mul_of_nonneg_right hK.2 ha,
        mul_le_mul_of_nonneg_right hS.2 hb]
  · rw [overall_score_eq resume jd sem (1 / 2) (4 / 5) (by norm_num) (by norm_num),
      overall_score_eq resume jd sem ((1 / 2) / (13 / 10)) ((4 / 5) / (13 / 10))
        (by norm_num) (by norm_num)]
    norm_num

/-- Witness for C2 at concrete inputs: weights `(1/2, 1/2)` are valid and
the score of two equal singleton keyword lists with semantic score `1` is
`100`, inside `[0,100]`. -/
theorem calculate_overall_score_spec_witness :
    calculate_overall_score ["python"] ["python"] 1 (1 / 2) (1 / 2)
        = Except.ok ((calculate_keyword_match_score ["python"] ["python"]
            * ((1 / 2) / ((1 / 2) + (1 / 2)))
          + clamp01 1 * ((1 / 2) / ((1 / 2) + (1 / 2)))) * 100)
      ∧ (0 : ℚ) ≤ 100 := by
  have h := calculate_overall_score_spec ["python"] ["python"] 1 (1 / 2) (1 / 2)
    (by norm_num) (by norm_num) (by norm_num) (by norm_num) (by norm_num)
  exact ⟨h.1, by norm_num⟩

/-- Counterexample to C5: both weights `0` lie in `[0,1]` but sum to `0` —
an invalid configuration per the claim — yet the function silently returns
the default numeric value `0.0` instead of an error result. -/
theorem zero_weights_counterexample :
    calculate_overall_score [] [] 0 0 0 = Except.ok 0 := by
  norm_num [calculate_overall_score]

/-- C5 (amended): a weight outside `[0,1]` is reported to the caller as an
error result (the `ValueError`), but weights inside `[0,1]` summing to `0`
are not an error: the function logs a warning and returns the default
score `0.0`. -/
theorem invalid_weights_behavior (resume jd : List String) (sem kw sw : ℚ) :
    (¬ (0 ≤ kw ∧ kw ≤ 1 ∧ 0 ≤ sw ∧ sw ≤ 1) →
      calculate_overall_score resume jd sem kw sw
        = Except.error "Weights must be between 0 and 1.")
    ∧ ((0 ≤ kw ∧ kw ≤ 1 ∧ 0 ≤ sw ∧ sw ≤ 1) → kw + sw = 0 →
      calculate_overall_score resume jd sem kw sw = Except.ok 0) := by
  constructor
  · intro h
    unfold calculate_overall_score
    rw [if_pos h]
  · intro hval hsum
    unfold calculate_overall_score
    rw [if_neg (not_not_intro hval), if_pos (by simp [hsum])]

/-- Witness for the amended C5: weight `2` is out of range and yields the
error result. -/
theorem invalid_weights_behavior_witness :
    calculate_overall_score [] [] 0 2 0
      = Except.error "Weights must be between 0 and 1." :=
  (invalid_weights_behavior [] [] 0 2 0).1 (by norm_num)

/-- C7: for fixed keyword lists and fixed valid weights,
`calculate_overall_score` is monotonically non-decreasing in the semantic
similarity argument, out-of-range values being clamped rather than
rejected. -/
theorem overall_score_monotone_semantic (resume jd : List String) (kw sw s1 s2 : ℚ)
    (hkw0 : 0 ≤ kw) (hkw1 : kw ≤ 1) (hsw0 : 0 ≤ sw) (hsw1 : sw ≤ 1) (hs : s1 ≤ s2)
    (x1 x2 : ℚ)
    (hx1 : calculate_overall_score resume jd s1 kw sw = Except.ok x1)
    (hx2 : calculate_overall_score resume jd s2 kw sw = Except.ok x2) :
    x1 ≤ x2 := by
  by_cases hpos : 0 < kw + sw
  · rw [overall_score_eq resume jd s1 kw sw ⟨hkw0, hkw1, hsw0, hsw1⟩ hpos] at hx1
    rw [overall_score_eq resume jd s2 kw sw ⟨hkw0, hkw1, hsw0, hsw1⟩ hpos] at hx2
    obtain rfl := (Except.ok.inj hx1).symm
    obtain rfl := (Except.ok.inj hx2).symm
    have hb : 0 ≤ sw / (kw + sw) := div_nonneg hsw0 hpos.le
    nlinarith [mul_le_mul_of_nonneg_right (clamp01_mono hs) hb]
  · unfold calculate_overall_score at hx1 hx2
    rw [if_neg (not_not_intro ⟨hkw0, hkw1, hsw0, hsw1⟩), if_pos hpos] at hx1 hx2
    obtain rfl := (Except.ok.inj hx1).symm
    obtain rfl := (Except.ok.inj hx2).symm
    exact le_rfl

/-- Witness for C7 at concrete inputs: semantic scores `0 ≤ 1` with valid
weights `(1/2, 1/2)` give overall scores `0 ≤ 50`. -/
theorem overall_score_monotone_semantic_witness :
    calculate_overall_score [] [] 0 (1 / 2) (1 / 2) = Except.ok 0
      ∧ calculate_overall_score [] [] 1 (1 / 2) (1 / 2) = Except.ok 50
      ∧ (0 : ℚ) ≤ 50 := by
  have e1 : calculate_overall_score [] [] 0 (1 / 2) (1 / 2) = Except.ok 0 := by
    rw [overall_score_eq [] [] 0 (1 / 2) (1 / 2) (by norm_num) (by norm_num)]
    norm_num [calculate_keyword_match_score, clamp01]
  have e2 : calculate_overall_score [] [] 1 (1 / 2) (1 / 2) = Except.ok 50 := by
    rw [overall_score_eq [] [] 1 (1 / 2) (1 / 2) (by norm_num) (by norm_num)]
    norm_num [calculate_keyword_match_score, clamp01]
  exact ⟨e1, e2, overall_score_monotone_semantic [] [] (1 / 2) (1 / 2) 0 1
    (by norm_num) (by norm_num) (by norm_num) (by norm_num) (by norm_num) 0 50 e1 e2⟩

/-! backend/semantic_analyzer.py

The Sentence Transformer backend is external to the repository: it is
modelled as an optional encoding function (`none` when the model failed to
load at import time), and the cosine-similarity computation of sklearn is
the mathematical cosine of the two returned vectors. -/

/-- A Python value passed where a string is expected: either an actual
string or a non-string value (rejected by the `isinstance` check,
semantic_analyzer.py line 40). -/
inductive PyVal where
  | str (s : String)
  | other
deriving DecidableEq, Repr

/-- Embeds the Python test `not text.strip()`: the string is empty or
whitespace-only (every character of the string is whitespace). -/
def isBlank (s : String) : Bool := s.toList.all (fun c => c.isWhitespace)

/-- Dot product of two embedding vectors (componentwise, truncating at the
shorter vector). -/
def dotProduct (v w : List ℚ) : ℚ := (List.zipWith (fun a b => a * b) v w).sum

/-- Cosine similarity of two embedding vectors, as computed by
`sklearn.metrics.pairwise.cosine_similarity` on the two encoded rows
(semantic_analyzer.py line 60); `x / 0 = 0` in Lean agrees with sklearn's
convention for zero-norm vectors. -/
noncomputable def cosineSim (v w : List ℚ) : ℝ :=
  ((dotProduct v w : ℚ) : ℝ) /
    (Real.sqrt ((dotProduct v v : ℚ) : ℝ) * Real.sqrt ((dotProduct w w : ℚ) : ℝ))

/-- Embeds `calculate_semantic_similarity` (semantic_analyzer.py, lines
24-65).  `sentence_model` is `none` when the Sentence Transformer failed
to load at import time; otherwise `some encode`, where `encode` returns a
document embedding or raises (`Except.error`), in which case the
`try/except` block maps the failure to `0.0`. -/
noncomputable def calculate_semantic_similarity
    (sentence_model : Option (String → Except String (List ℚ)))
    (text1 text2 : PyVal) : ℝ :=
  match sentence_model with
  | none => 0
  | some encode =>
    match text1, text2 with
    | PyVal.str s1, PyVal.str s2 =>
      if isBlank s1 || isBlank s2 then
        (if isBlank s1 && isBlank s2 then 1 else 0)
      else
        (match encode s1, encode s2 with
         | Except.ok v1, Except.ok v2 => cosineSim v1 v2
         | _, _ => 0)
    | _, _ => 0

theorem dotProduct_eq_sum (v w : List ℚ) :
    dotProduct v w = ∑ i in Finset.range (min v.length w.length),
      v.getD i 0 * w.getD i 0 := by
  induction v generalizing w with
  | nil => simp [dotProduct]
  | cons a v ih =>
    cases w with
    | nil => simp [dotProduct]
    | cons b w =>
      simp only [dotProduct, List.zipWith_cons_cons, List.sum_cons, List.length_cons]
      rw [show min (v.length + 1) (w.length + 1) = min v.length w.length + 1 by omega]
      rw [Finset.sum_range_succ']
      simp only [List.getD_cons_succ, List.getD_cons_zero]
      rw [show (List.zipWith (fun a b => a * b) v w).sum = dotProduct v w from rfl, ih]
      ring

theorem dotProduct_self_nonneg (v : List ℚ) : 0 ≤ dotProduct v v := by
  rw [dotProduct_eq_sum]
  exact Finset.sum_nonneg (fun i _ => mul_self_nonneg _)

theorem sum_sq_le_dotProduct_self (v : List ℚ) (n : ℕ) (hn : n ≤ v.length) :
    ∑ i in Finset.range n, v.getD i 0 ^ 2 ≤ dotProduct v v := by
  rw [dotProduct_eq_sum, min_self]
  calc ∑ i in Finset.range n, v.getD i 0 ^ 2
      ≤ ∑ i in Finset.range v.length, v.getD i 0 ^ 2 := by
        apply Finset.sum_le_sum_of_subset_of_nonneg (Finset.range_subset.mpr hn)
        exact fun i _ _ => sq_nonneg _
    _ = ∑ i in Finset.range v.length, v.getD i 0 * v.getD i 0 := by
        apply Finset.sum_congr rfl
        intro i _
        ring

theorem dotProduct_sq_le (v w : List ℚ) :
    dotProduct v w ^ 2 ≤ dotProduct v v * dotProduct w w := by
  have hcs := Finset.sum_mul_sq_le_sq_mul_sq (Finset.range (min v.length w.length))
    (fun i => v.getD i 0) (fun i => w.getD i 0)
  have hv : ∑ i in Finset.range (min v.length w.length), v.getD i 0 ^ 2
      ≤ dotProduct v v :=
    sum_sq_le_dotProduct_self v _ (min_le_left _ _)
  have hw : ∑ i in Finset.range (min v.length w.length), w.getD i 0 ^ 2
      ≤ dotProduct w w :=
    sum_sq_le_dotProduct_self w _ (min_le_right _ _)
  have hwnn : (0 : ℚ) ≤ ∑ i in Finset.range (min v.length w.length), w.getD i 0 ^ 2 :=
    Finset.sum_nonneg (fun i _ => sq_nonneg _)
  have hvnn : (0 : ℚ) ≤ dotProduct v v := dotProduct_self_nonneg v
  rw [dotProduct_eq_sum v w]
  exact le_trans hcs (mul_le_mul hv hw hwnn hvnn)

theorem cosineSim_bounds (v w : List ℚ) : -1 ≤ cosineSim v w ∧ cosineSim v w ≤ 1 := by
  have hA : (0 : ℝ) ≤ ((dotProduct v v : ℚ) : ℝ) := by
    exact_mod_cast dotProduct_self_nonneg v
  have hB : (0 : ℝ) ≤ ((dotProduct w w : ℚ) : ℝ) := by
    exact_mod_cast dotProduct_self_nonneg w
  have hsq : ((dotProduct v w : ℚ) : ℝ) ^ 2
      ≤ ((dotProduct v v : ℚ) : ℝ) * ((dotProduct w w : ℚ) : ℝ) := by
    exact_mod_cast dotProduct_sq_le v w
  have habs : |((dotProduct v w : ℚ) : ℝ)|
      ≤ Real.sqrt ((dotProduct v v : ℚ) : ℝ) * Real.sqrt ((dotProduct w w : ℚ) : ℝ) := by
    rw [← Real.sqrt_sq_eq_abs, ← Real.sqrt_mul hA]
    exact Real.sqrt_le_sqrt hsq
  have hd : 0 ≤ Real.sqrt ((dotProduct v v : ℚ) : ℝ) * Real.sqrt ((dotProduct w w : ℚ) : ℝ) :=
    mul_nonneg (Real.sqrt_nonneg _) (Real.sqrt_nonneg _)
  rcases eq_or_lt_of_le hd with h0 | h0
  · unfold cosineSim
    rw [← h0, div_zero]
    norm_num
  · have habs2 : |cosineSim v w| ≤ 1 := by
      unfold cosineSim
      rw [abs_div, abs_of_pos h0]
      exact (div_le_one h0).mpr habs
    exact abs_le.mp habs2

theorem calculate_semantic_similarity_str (encode : String → Except String (List ℚ))
    (s1 s2 : String) :
    calculate_semantic_similarity (some encode) (PyVal.str s1) (PyVal.str s2) =
      if isBlank s1 || isBlank s2 then
        (if isBlank s1 && isBlank s2 then (1 : ℝ) else 0)
      else
        (match encode s1, encode s2 with
         | Except.ok v1, Except.ok v2 => cosineSim v1 v2
         | _, _ => 0) := rfl

/-- C3 (amended): `calculate_semantic_similarity` always returns a value
in `[-1, 1]`, not `[0, 1]`: the guard paths return `0.0` or `1.0`, and the
computation path returns the raw cosine similarity of the two embedding
vectors, which can be negative because the code applies no clamping (the
scorer clamps precisely because of this). -/
theorem calculate_semantic_similarity_range
    (sentence_model : Option (String → Except String (List ℚ)))
    (text1 text2 : PyVal) :
    -1 ≤ calculate_semantic_similarity sentence_model text1 text2
      ∧ calculate_semantic_similarity sentence_model text1 text2 ≤ 1 := by
  rcases sentence_model with _ | encode
  · unfold calculate_semantic_similarity
    norm_num
  rcases text1 with s1 | _
  · rcases text2 with s2 | _
    · rw [calculate_semantic_similarity_str]
      by_cases hb : (isBlank s1 || isBlank s2) = true
      · rw [if_pos hb]
        by_cases hb2 : (isBlank s1 && isBlank s2) = true
        · rw [if_pos hb2]; norm_num
        · rw [if_neg hb2]; norm_num
      · rw [if_neg hb]
        rcases h1 : encode s1 with e1 | v1 <;> rcases h2 : encode s2 with e2 | v2 <;>
          simp only
        · norm_num
        · norm_num
        · norm_num
        · exact cosineSim_bounds v1 v2
    · unfold calculate_semantic_similarity
      norm_num
  · unfold calculate_semantic_similarity
    rcases text2 with s2 | _ <;> norm_num

/-- Concrete embedding backend for the C3 counterexample: it encodes "a"
to the unit vector `[1, 0]` and every other string to the opposite unit
vector `[-1, 0]` (antipodal embeddings, giving cosine similarity `-1`). -/
def encodeCex : String → Except String (List ℚ) :=
  fun s => if s = "a" then Except.ok [1, 0] else Except.ok [-1, 0]

/-- Counterexample to C3: on the computation path with two non-empty texts
the function returns the raw cosine similarity of the embedding vectors,
which is negative here — so the result is not constrained to `[0.0, 1.0]`. -/
theorem semantic_similarity_negative_counterexample :
    calculate_semantic_similarity (some encodeCex) (PyVal.str "a") (PyVal.str "b") < 0 := by
  rw [calculate_semantic_similarity_str]
  have hb1 : isBlank "a" = false := rfl
  have hb2 : isBlank "b" = false := rfl
  rw [hb1, hb2]
  simp only [Bool.or_false, Bool.false_or, if_false, ite_false, Bool.false_eq_true]
  have h1 : encodeCex "a" = Except.ok [1, 0] := rfl
  have h2 : encodeCex "b" = Except.ok [-1, 0] := rfl
  rw [h1, h2]
  have hdot : dotProduct [1, 0] [-1, 0] = -1 := by
    norm_num [dotProduct]
  have hself1 : dotProduct [(1 : ℚ), 0] [1, 0] = 1 := by
    norm_num [dotProduct]
  have hself2 : dotProduct [(-1 : ℚ), 0] [-1, 0] = 1 := by
    norm_num [dotProduct]
  show cosineSim [1, 0] [-1, 0] < 0
  unfold cosineSim
  rw [hdot, hself1, hself2]
  norm_num

/-- C4: the edge policy of `calculate_semantic_similarity`.  When the
embedding backend is unavailable every call returns `0.0`; otherwise a
non-string input yields `0.0`; two empty/whitespace-only strings yield
`1.0`; exactly one empty/whitespace-only string yields `0.0`; and a
failure raised while encoding either text is caught and mapped to `0.0`. -/
theorem calculate_semantic_similarity_edge_policy
    (encode : String → Except String (List ℚ)) (text1 text2 : PyVal)
    (s1 s2 e1 e2 : String) :
    (calculate_semantic_similarity none text1 text2 = 0)
    ∧ (text1 = PyVal.other ∨ text2 = PyVal.other →
        calculate_semantic_similarity (some encode) text1 text2 = 0)
    ∧ (isBlank s1 = true → isBlank s2 = true →
        calculate_semantic_similarity (some encode) (PyVal.str s1) (PyVal.str s2) = 1)
    ∧ (isBlank s1 = true → isBlank s2 = false →
        calculate_semantic_similarity (some encode) (PyVal.str s1) (PyVal.str s2) = 0)
    ∧ (isBlank s1 = false → isBlank s2 = true →
        calculate_semantic_similarity (some encode) (PyVal.str s1) (PyVal.str s2) = 0)
    ∧ (isBlank s1 = false → isBlank s2 = false → encode s1 = Except.error e1 →
        calculate_semantic_similarity (some encode) (PyVal.str s1) (PyVal.str s2) = 0)
    ∧ (isBlank s1 = false → isBlank s2 = false → encode s2 = Except.error e2 →
        calculate_semantic_similarity (some encode) (PyVal.str s1) (PyVal.str s2) = 0) := by
  refine ⟨rfl, ?_, ?_, ?_, ?_, ?_, ?_⟩
  · intro h
    rcases text1 with t1 | _
    · rcases text2 with t2 | _
      · rcases h with h | h <;> exact absurd h (by simp)
      · rfl
    · rcases text2 with t2 | _ <;> rfl
  · intro hb1 hb2
    rw [calculate_semantic_similarity_str, hb1, hb2]
    rfl
  · intro hb1 hb2
    rw [calculate_semantic_similarity_str, hb1, hb2]
    rfl
  · intro hb1 hb2
    rw [calculate_semantic_similarity_str, hb1, hb2]
    rfl
  · intro hb1 hb2 he
    rw [calculate_semantic_similarity_str, hb1, hb2, he]
    simp only [Bool.or_false, ite_false, Bool.false_eq_true, if_false]
  · intro hb1 hb2 he
    rw [calculate_semantic_similarity_str, hb1, hb2, he]
    simp only [Bool.or_false, ite_false, Bool.false_eq_true, if_false]
    try rcases encode s1 with e | v <;> rfl

/-- Backend used in the C4 witness: every encoding attempt raises. -/
def encodeFail : String → Except String (List ℚ) :=
  fun _ => Except.error "encoding failed"

/-- Witness for C4 at concrete inputs: unavailable backend, non-string
input, two blank strings, one blank string, and a raising encoder. -/
theorem calculate_semantic_similarity_edge_policy_witness :
    calculate_semantic_similarity none (PyVal.str "x") (PyVal.str "y") = 0
    ∧ calculate_semantic_similarity (some encodeFail) PyVal.other (PyVal.str "y") = 0
    ∧ calculate_semantic_similarity (some encodeFail) (PyVal.str " ") (PyVal.str "") = 1
    ∧ calculate_semantic_similarity (some encodeFail) (PyVal.str " ") (PyVal.str "y") = 0
    ∧ calculate_semantic_similarity (some encodeFail) (PyVal.str "x") (PyVal.str "y") = 0 := by
  have h := calculate_semantic_similarity_edge_policy encodeFail PyVal.other
    (PyVal.str "y") "x" "y" "encoding failed" "encoding failed"
  have h2 := calculate_semantic_similarity_edge_policy encodeFail (PyVal.str " ")
    (PyVal.str "y") " " "" "encoding failed" "encoding failed"
  refine ⟨h.1, h.2.1 (Or.inl rfl), h2.2.2.1 rfl rfl, ?_, h.2.2.2.2.2.1 rfl rfl rfl⟩
  have h3 := calculate_semantic_similarity_edge_policy encodeFail (PyVal.str " ")
    (PyVal.str "y") " " "y" "encoding failed" "encoding failed"
  exact h3.2.2.2.1 rfl rfl

/-! backend/keyword_extractor.py

The sklearn `TfidfVectorizer` is external to the repository; its outputs —
the TF-IDF matrix (one row of scores per document) and the vocabulary
(`get_feature_names_out`, whose terms are pairwise distinct) — are the
inputs of the embedded selection logic. -/

/-- Per-document keyword selection of `extract_keywords_tfidf`
(keyword_extractor.py, lines 44-53): sort the row's indices by descending
TF-IDF score (`argsort()[0][::-1]`; the tie-breaking order among
equally-scored indices is unspecified by the source, so any sort by
descending score models it), truncate at `top_n`, keep only indices with
strictly positive score, and map to vocabulary terms. -/
def tfidfSelect (doc_vector : List ℚ) (feature_names : List String) (top_n : Nat) :
    List String :=
  let sorted_indices := (List.range doc_vector.length).insertionSort
    (fun i j => doc_vector.getD j 0 ≤ doc_vector.getD i 0)
  ((sorted_indices.take top_n).filter
      (fun idx => decide (0 < doc_vector.getD idx 0))).map
    (fun idx => feature_names.getD idx "")

/-- Embeds `extract_keywords_tfidf` (keyword_extractor.py, lines 20-55) on
a fitted corpus: one keyword list per row of the TF-IDF matrix. -/
def extract_keywords_tfidf (tfidf_matrix : List (List ℚ))
    (feature_names : List String) (top_n : Nat) : List (List String) :=
  tfidf_matrix.map (fun doc_vector => tfidfSelect doc_vector feature_names top_n)

/-- TF-IDF score of a term for a document: the row entry at the term's
index in the vocabulary. -/
def tfidfScore (doc_vector : List ℚ) (feature_names : List String) (t : String) : ℚ :=
  doc_vector.getD (feature_names.indexOf t) 0

theorem tfidfScore_getD (doc_vector : List ℚ) (feature_names : List String)
    (hnodup : feature_names.Nodup) (i : ℕ) (hi : i < feature_names.length) :
    tfidfScore doc_vector feature_names (feature_names.getD i "") = doc_vector.getD i 0 := by
  unfold tfidfScore
  rw [List.getD_eq_get feature_names "" hi, List.get_indexOf hnodup ⟨i, hi⟩]

theorem map_getD_invariants (doc_vector : List ℚ) (feature_names : List String)
    (idxs : List ℕ) (hnodup : feature_names.Nodup)
    (hlen : doc_vector.length = feature_names.length)
    (hnd : idxs.Nodup)
    (hbound : ∀ i ∈ idxs, i < doc_vector.length)
    (hpos : ∀ i ∈ idxs, 0 < doc_vector.getD i 0)
    (hsort : List.Pairwise (fun i j => doc_vector.getD j 0 ≤ doc_vector.getD i 0) idxs) :
    (idxs.map (fun idx => feature_names.getD idx "")).Nodup
    ∧ (∀ t ∈ idxs.map (fun idx => feature_names.getD idx ""),
        0 < tfidfScore doc_vector feature_names t)
    ∧ List.Pairwise (fun a b => tfidfScore doc_vector feature_names b
        ≤ tfidfScore doc_vector feature_names a)
        (idxs.map (fun idx => feature_names.getD idx "")) := by
  have hbound2 : ∀ i ∈ idxs, i < feature_names.length := fun i hi => hlen ▸ hbound i hi
  refine ⟨?_, ?_, ?_⟩
  · refine List.Nodup.map_on ?_ hnd
    intro x hx y hy hxy
    rw [List.getD_eq_get feature_names "" (hbound2 x hx),
      List.getD_eq_get feature_names "" (hbound2 y hy)] at hxy
    have := List.nodup_iff_injective_get.mp hnodup hxy
    exact congrArg Fin.val this
  · intro t ht
    rw [List.mem_map] at ht
    obtain ⟨i, hi, rfl⟩ := ht
    rw [tfidfScore_getD doc_vector feature_names hnodup i (hbound2 i hi)]
    exact hpos i hi
  · rw [List.pairwise_map]
    refine hsort.imp_of_mem ?_
    intro a b ha hb hr
    rw [tfidfScore_getD doc_vector feature_names hnodup a (hbound2 a ha),
      tfidfScore_getD doc_vector feature_names hnodup b (hbound2 b hb)]
    exact hr

theorem tfidfSelect_invariants (doc_vector : List ℚ) (feature_names : List String)
    (top_n : Nat) (hnodup : feature_names.Nodup)
    (hlen : doc_vector.length = feature_names.length) :
    (tfidfSelect doc_vector feature_names top_n).Nodup
    ∧ (tfidfSelect doc_vector feature_names top_n).length ≤ top_n
    ∧ (∀ t ∈ tfidfSelect doc_vector feature_names top_n,
        0 < tfidfScore doc_vector feature_names t)
    ∧ List.Pairwise (fun a b => tfidfScore doc_vector feature_names b
        ≤ tfidfScore doc_vector feature_names a)
        (tfidfSelect doc_vector feature_names top_n) := by
  haveI hto : IsTotal ℕ (fun i j => doc_vector.getD j 0 ≤ doc_vector.getD i 0) :=
    ⟨fun a b => le_total _ _⟩
  haveI htr : IsTrans ℕ (fun i j => doc_vector.getD j 0 ≤ doc_vector.getD i 0) :=
    ⟨fun a b c hab hbc => le_trans hbc hab⟩
  have hperm := List.perm_insertionSort
    (fun i j => doc_vector.getD j 0 ≤ doc_vector.getD i 0) (List.range doc_vector.length)
  have hsorted := List.sorted_insertionSort
    (fun i j => doc_vector.getD j 0 ≤ doc_vector.getD i 0) (List.range doc_vector.length)
  have hsubl : ((((List.range doc_vector.length).insertionSort
        (fun i j => doc_vector.getD j 0 ≤ doc_vector.getD i 0)).take top_n).filter
        (fun idx => decide (0 < doc_vector.getD idx 0))).Sublist
      ((List.range doc_vector.length).insertionSort
        (fun i j => doc_vector.getD j 0 ≤ doc_vector.getD i 0)) :=
    (List.filter_sublist _).trans (List.take_sublist _ _)
  have hnd : ((((List.range doc_vector.length).insertionSort
        (fun i j => doc_vector.getD j 0 ≤ doc_vector.getD i 0)).take top_n).filter
        (fun idx => decide (0 < doc_vector.getD idx 0))).Nodup :=
    hsubl.nodup (hperm.symm.nodup (List.nodup_range _))
  have hmem : ∀ i ∈ (((List.range doc_vector.length).insertionSort
        (fun i j => doc_vector.getD j 0 ≤ doc_vector.getD i 0)).take top_n).filter
        (fun idx => decide (0 < doc_vector.getD idx 0)), i < doc_vector.length := by
    intro i hi
    exact List.mem_range.mp (hperm.mem_iff.mp (hsubl.subset hi))
  have hpos : ∀ i ∈ (((List.range doc_vector.length).insertionSort
        (fun i j => doc_vector.getD j 0 ≤ doc_vector.getD i 0)).take top_n).filter
        (fun idx => decide (0 < doc_vector.getD idx 0)), 0 < doc_vector.getD i 0 := by
    intro i hi
    have := (List.mem_filter.mp hi).2
    simpa using this
  have hsort2 : List.Pairwise (fun i j => doc_vector.getD j 0 ≤ doc_vector.getD i 0)
      ((((List.range doc_vector.length).insertionSort
        (fun i j => doc_vector.getD j 0 ≤ doc_vector.getD i 0)).take top_n).filter
        (fun idx => decide (0 < doc_vector.getD idx 0))) :=
    List.Pairwise.sublist hsubl hsorted
  have h := map_getD_invariants doc_vector feature_names _ hnodup hlen hnd hmem hpos hsort2
  refine ⟨h.1, ?_, h.2.1, h.2.2⟩
  calc (tfidfSelect doc_vector feature_names top_n).length
      = ((((List.range doc_vector.length).insertionSort
          (fun i j => doc_vector.getD j 0 ≤ doc_vector.getD i 0)).take top_n).filter
          (fun idx => decide (0 < doc_vector.getD idx 0))).length := by
        simp [tfidfSelect]
    _ ≤ (((List.range doc_vector.length).insertionSort
          (fun i j => doc_vector.getD j 0 ≤ doc_vector.getD i 0)).take top_n).length :=
        List.length_filter_le _ _
    _ ≤ top_n := List.length_take_le _ _

/-- C8: every per-document keyword list returned by
`extract_keywords_tfidf` has pairwise-distinct terms, has length at most
`top_n`, contains only terms whose TF-IDF score for that document is
strictly positive, and lists terms in non-increasing order of TF-IDF
score.  The vocabulary returned by the vectorizer has pairwise-distinct
terms, one score per term and row. -/
theorem extract_keywords_tfidf_invariants (tfidf_matrix : List (List ℚ))
    (feature_names : List String) (top_n : Nat)
    (hnodup : feature_names.Nodup)
    (hwidth : ∀ doc ∈ tfidf_matrix, doc.length = feature_names.length) :
    ∀ kws ∈ extract_keywords_tfidf tfidf_matrix feature_names top_n,
      ∃ doc_vector, doc_vector ∈ tfidf_matrix
        ∧ kws = tfidfSelect doc_vector feature_names top_n
        ∧ kws.Nodup
        ∧ kws.length ≤ top_n
        ∧ (∀ t ∈ kws, 0 < tfidfScore doc_vector feature_names t)
        ∧ List.Pairwise (fun a b => tfidfScore doc_vector feature_names b
            ≤ tfidfScore doc_vector feature_names a) kws := by
  intro kws hkws
  rw [extract_keywords_tfidf, List.mem_map] at hkws
  obtain ⟨doc_vector, hdoc, rfl⟩ := hkws
  have h := tfidfSelect_invariants doc_vector feature_names top_n hnodup
    (hwidth doc_vector hdoc)
  exact ⟨doc_vector, hdoc, rfl, h.1, h.2.1, h.2.2.1, h.2.2.2⟩

/-- Witness for C8 at concrete inputs: corpus matrix `[[3, 0, 1]]` over
vocabulary `["alpha", "beta", "gamma"]` with `top_n = 2` selects
`["alpha", "gamma"]`. -/
theorem extract_keywords_tfidf_invariants_witness :
    ∃ doc_vector, doc_vector ∈ [[(3 : ℚ), 0, 1]]
      ∧ ["alpha", "gamma"] = tfidfSelect doc_vector ["alpha", "beta", "gamma"] 2
      ∧ (["alpha", "gamma"] : List String).Nodup
      ∧ (["alpha", "gamma"] : List String).length ≤ 2
      ∧ (∀ t ∈ (["alpha", "gamma"] : List String),
          0 < tfidfScore doc_vector ["alpha", "beta", "gamma"] t)
      ∧ List.Pairwise (fun a b => tfidfScore doc_vector ["alpha", "beta", "gamma"] b
          ≤ tfidfScore doc_vector ["alpha", "beta", "gamma"] a)
          (["alpha", "gamma"] : List String) :=
  extract_keywords_tfidf_invariants [[(3 : ℚ), 0, 1]] ["alpha", "beta", "gamma"] 2
    (by decide) (by decide) ["alpha", "gamma"] (by decide)

end ResumeAnalyzer

